import Mathlib

/-!
Shallow embedding of the LLM Compiler output parser
(`llama_index/agent/llm_compiler/output_parser.py`) and of the plan graph
builder it delegates to, together with theorems settling the claims about
the natural-language specification of this component.

Strings are modelled as their underlying `List Char`; the Python regular
expressions of the source are modelled by specialised deterministic
scanners whose behaviour coincides with the backtracking semantics of the
concrete patterns (each pattern in the source admits a maximal-munch
reading, justified point by point in the doc comments below).
-/

/-! ## Generic helpers modelling Python string primitives -/

/-- Boolean prefix test on character lists (Python `str.startswith`). -/
def startsWithL : List Char → List Char → Bool
  | [], _ => true
  | _ :: _, [] => false
  | p :: ps, c :: cs => p == c && startsWithL ps cs

/-- Substring containment (Python `in` on strings). -/
def containsSub (pat : List Char) : List Char → Bool
  | [] => startsWithL pat []
  | c :: cs => startsWithL pat (c :: cs) || containsSub pat cs

/-- First index at or after `i` where `p` holds, scanning left to right. -/
def findIdxFrom (p : Char → Bool) : List Char → Nat → Option Nat
  | [], _ => none
  | c :: cs, i => if p c then some i else findIdxFrom p cs (i + 1)

/-- Python `str.find` for a single character: first index, or `-1`. -/
def pyFindChar (cs : List Char) (c : Char) : Int :=
  match findIdxFrom (fun x => x == c) cs 0 with
  | some i => (i : Int)
  | none => -1

/-- Normalise one endpoint of a Python slice `s[a:b]` on a string of
length `n`: negative indices count from the end, and both ends are clamped
into `[0, n]`. -/
def pySliceIdx (n : Nat) (i : Int) : Nat :=
  if i < 0 then Int.toNat (i + n) else min (Int.toNat i) n

/-- Python slice `s[a:b]` on a character list. -/
def pySlice (cs : List Char) (a b : Int) : List Char :=
  let a' := pySliceIdx cs.length a
  let b' := pySliceIdx cs.length b
  (cs.drop a').take (b' - a')

/-- Python `str.split("\n")`: no collapsing of empty fields. -/
def splitNl : List Char → List (List Char)
  | [] => [[]]
  | c :: cs =>
    if c == '\n' then [] :: splitNl cs
    else
      match splitNl cs with
      | [] => [[c]]
      | l :: ls => (c :: l) :: ls

/-- Characters of Python's default whitespace class (`str.strip`, `\s`),
restricted to ASCII, which is all the source's inputs use. -/
def isPySpace (c : Char) : Bool :=
  c == ' ' || c == '\t' || c == '\n' || c == '\r' || c == '\x0b' || c == '\x0c'

/-- Python `str.strip()` with the default whitespace set. -/
def pyStrip (cs : List Char) : List Char :=
  ((cs.dropWhile isPySpace).reverse.dropWhile isPySpace).reverse

/-- Python `str.split(sep)` for a non-empty separator `sep`: fields between
non-overlapping leftmost occurrences of `sep`.  Fuel-indexed to make the
recursion structural; `fuel = length + 1` always suffices because every
step consumes at least one character. -/
def pySplitSubAux (sep : List Char) : Nat → List Char → List Char → List (List Char)
  | 0, acc, rest => [acc.reverse ++ rest]
  | fuel + 1, acc, rest =>
    if startsWithL sep rest then
      acc.reverse :: pySplitSubAux sep fuel [] (rest.drop sep.length)
    else
      match rest with
      | [] => [acc.reverse]
      | c :: cs => pySplitSubAux sep fuel (c :: acc) cs

/-- Python `str.split(sep)` for a non-empty separator. -/
def pySplitSub (sep cs : List Char) : List (List Char) :=
  pySplitSubAux sep (cs.length + 1) [] cs

/-- Last element of a list satisfying `p`, if any. -/
def lastSat (p : α → Bool) : List α → Option α
  | [] => none
  | a :: l =>
    match lastSat p l with
    | some b => some b
    | none => if p a then some a else none

/-- Numeric value of a run of decimal digits (Python `int` on the capture
of `\d+`). -/
def natOfDigits (ds : List Char) : Nat :=
  ds.foldl (fun n c => n * 10 + (c.toNat - 48)) 0

/-- Python `\w` (ASCII): letters, digits, underscore. -/
def isWordChar (c : Char) : Bool :=
  c.isAlpha || c.isDigit || c == '_'

/-- Maximum of a list of naturals (0 on the empty list). -/
def listMax (l : List Nat) : Nat := l.foldr Nat.max 0

/-! ## Reference Scanner

Source: `output_parser.py`, line 14
`ID_PATTERN = r"\$\{?(\d+)\}?"` and lines 22-25 `default_dependency_rule`.

`re.findall(ID_PATTERN, args)` scans left to right; at a `$` it tries to
consume an optional `{`, then a maximal non-empty digit run (the capture),
then an optional `}`.  If `{` was consumed but no digit follows, the
backtracking retry without `{` also fails (the next character is `{`, not
a digit), so the whole position fails and the scan advances one character.
On success the scan resumes after the consumed text. -/

/-- One findall pass of `ID_PATTERN`; fuel-indexed (a successful match
consumes at least two characters, a failure advances one, so
`fuel = length + 1` suffices). -/
def scanRefsAux : Nat → List Char → List Nat
  | 0, _ => []
  | fuel + 1, cs =>
    match cs with
    | [] => []
    | '$' :: rest =>
      let core := fun (body : List Char) =>
        let ds := body.takeWhile Char.isDigit
        if ds.isEmpty then none
        else
          let r3 := body.drop ds.length
          let rem := match r3 with
            | '}' :: t => t
            | _ => r3
          some (natOfDigits ds, rem)
      let attempt := match rest with
        | '{' :: body => core body
        | _ => core rest
      match attempt with
      | some (n, rem) => n :: scanRefsAux fuel rem
      | none => scanRefsAux fuel rest
    | _ :: t => scanRefsAux fuel t

/-- `[int(m) for m in re.findall(ID_PATTERN, args)]` of the source. -/
def scanRefs (args : String) : List Nat :=
  scanRefsAux (args.data.length + 1) args.data

/-- Source lines 22-25: `default_dependency_rule(idx, args)` returns
whether `idx` is among the integers extracted from `args` by
`ID_PATTERN`. -/
def default_dependency_rule (idx : Nat) (args : String) : Bool :=
  (scanRefs args).contains idx

/-! ## Step Tokenizer

Source: `output_parser.py`, lines 11-12 and 39-54.  The pattern is
`(?:Thought: ([^\n]*)\n)?\n*(\d+)\. (\w+)\((.*)\)(\s*#\w+\n)?`, scanned by
`re.findall`.  Every quantifier in the pattern admits a maximal-munch
reading:

* `\n*` before the digits: after consuming fewer newlines the next
  character is still `\n`, never a digit, so maximal consumption is
  equivalent to backtracking;
* `(\d+)\. `: a shorter digit run is followed by a digit, not `.`;
* `(\w+)\(`: a shorter word run is followed by a word character, not `(`;
* `(.*)\)`: `.` does not cross a newline, so the argument capture ends at
  the last `)` of the current line (backtracking from the end of the
  line), and the rest of the pattern is optional so no further
  backtracking can occur;
* `(\s*#\w+\n)?`: a shorter whitespace run is followed by whitespace,
  never `#`, and a shorter word run is followed by a word character,
  never `\n`; on failure the optional group matches empty.

`re.findall` emits every non-overlapping match from left to right,
advancing one character past a position where no match starts, and an
unmatched optional capture yields the empty string. -/

/-- One raw step as captured by the source's regular expression and stored
in `LLMCompilerParseResult` (schema fields `thought`, `idx`, `tool_name`,
`args`); the trailing `#tag` capture is discarded by `parse`. -/
structure LLMCompilerParseResult where
  thought : String
  idx : Nat
  tool_name : String
  args : String
  deriving DecidableEq

/-- Split the current line (the characters before the next newline) at its
last `)`: returns the text before it and the text after it. -/
def splitAtLastParen (line : List Char) : Option (List Char × List Char) :=
  if line.contains ')' then
    let r := line.reverse
    some ((r.dropWhile (fun c => c != ')')).tail.reverse,
          (r.takeWhile (fun c => c != ')')).reverse)
  else none

/-- The optional trailing group `(\s*#\w+\n)?`: consume it greedily when it
matches, otherwise leave the position unchanged. -/
def skipTrailing (cs : List Char) : List Char :=
  let ws := cs.takeWhile isPySpace
  match cs.drop ws.length with
  | '#' :: rest =>
    let w := rest.takeWhile isWordChar
    if w.isEmpty then cs
    else
      match rest.drop w.length with
      | '\n' :: rest2 => rest2
      | _ => cs
  | _ => cs

/-- Match `\n*(\d+)\. (\w+)\((.*)\)(\s*#\w+\n)?` at the head of `cs`,
returning the step id, tool name, argument capture and the remaining
text. -/
def matchCore (cs : List Char) : Option (Nat × String × String × List Char) :=
  let cs1 := cs.dropWhile (fun c => c == '\n')
  let ds := cs1.takeWhile Char.isDigit
  if ds.isEmpty then none
  else
    match cs1.drop ds.length with
    | '.' :: ' ' :: cs3 =>
      let w := cs3.takeWhile isWordChar
      if w.isEmpty then none
      else
        match cs3.drop w.length with
        | '(' :: cs5 =>
          let line := cs5.takeWhile (fun c => c != '\n')
          match splitAtLastParen line with
          | none => none
          | some (args, afterInLine) =>
            some (natOfDigits ds, String.mk w, String.mk args,
                  skipTrailing (afterInLine ++ cs5.drop line.length))
        | _ => none
    | _ => none

/-- The literal prefix of `THOUGHT_PATTERN` (`"Thought: "`, with the
trailing space). -/
def thoughtCapL : List Char := "Thought: ".data

/-- Match the full step pattern at the head of `cs`: the optional
`Thought:` line (tried first, as the regex engine does) followed by the
core action pattern. -/
def matchAt (cs : List Char) : Option (String × Nat × String × String × List Char) :=
  let withThought :=
    if startsWithL thoughtCapL cs then
      let rest := cs.drop thoughtCapL.length
      let th := rest.takeWhile (fun c => c != '\n')
      match rest.drop th.length with
      | '\n' :: rest2 =>
        match matchCore rest2 with
        | some (i, tool, args, rem) => some (String.mk th, i, tool, args, rem)
        | none => none
      | _ => none
    else none
  match withThought with
  | some r => some r
  | none =>
    match matchCore cs with
    | some (i, tool, args, rem) => some ("", i, tool, args, rem)
    | none => none

/-- The findall scan over the whole plan text.  Fuel-indexed: a successful
match consumes at least one character and a failed position advances one,
so `fuel = length + 1` suffices. -/
def scanStepsAux : Nat → List Char → List LLMCompilerParseResult
  | 0, _ => []
  | fuel + 1, cs =>
    match matchAt cs with
    | some (th, i, tool, args, rest) =>
      { thought := th, idx := i, tool_name := tool, args := args } ::
        scanStepsAux fuel rest
    | none =>
      match cs with
      | [] => []
      | _ :: t => scanStepsAux fuel t

/-- Source lines 39-54: the tokenizing part of
`LLMCompilerPlanParser.parse` — `re.findall(pattern, text)` converted to a
list of `LLMCompilerParseResult`. -/
def stepScan (text : String) : List LLMCompilerParseResult :=
  scanStepsAux (text.data.length + 1) text.data

/-! ## Join/Replan Classifier

Source: `output_parser.py`, lines 73-83 (`LLMCompilerJoinerParser.parse`).
The text is split on newlines and folded left to right over the default
triple `("", "", False)`; a line starting with `"Action:"` overwrites the
answer with `ans[ans.find("(") + 1 : ans.find(")")]` and sets `is_replan`
to whether the line contains `"Replan"`; otherwise a line starting with
`"Thought:"` overwrites the thought with
`ans.split("Thought:")[1].strip()`. -/

/-- Result of the join-step parser (schema `JoinerOutput`). -/
structure JoinerOutput where
  thought : String
  answer : String
  is_replan : Bool
  deriving DecidableEq

/-- Literal line prefix `"Action:"` (line 77). -/
def actionPreL : List Char := "Action:".data

/-- Literal line prefix `"Thought:"` (line 80). -/
def thoughtPreL : List Char := "Thought:".data

/-- Literal `JOINER_REPLAN = "Replan"` (line 17). -/
def replanL : List Char := "Replan".data

/-- Line 78: `ans[ans.find("(") + 1 : ans.find(")")]`. -/
def extractAnswer (ans : List Char) : List Char :=
  pySlice ans (pyFindChar ans '(' + 1) (pyFindChar ans ')')

/-- Line 81: `ans.split("Thought:")[1].strip()` (only reached on lines that
start with `"Thought:"`, so index 1 exists). -/
def extractThought (ans : List Char) : List Char :=
  pyStrip ((pySplitSub thoughtPreL ans).getD 1 [])

/-- One iteration of the source's `for ans in raw_answers` loop, acting on
the state triple `(thought, answer, is_replan)`. -/
def joinerStep (acc : String × String × Bool) (ans : List Char) :
    String × String × Bool :=
  if startsWithL actionPreL ans then
    (acc.1, String.mk (extractAnswer ans), containsSub replanL ans)
  else if startsWithL thoughtPreL ans then
    (String.mk (extractThought ans), acc.2)
  else acc

/-- Source lines 73-83: `LLMCompilerJoinerParser.parse`. -/
def joinerParse (text : String) : JoinerOutput :=
  let res := (splitNl text.data).foldl joinerStep ("", "", false)
  { thought := res.1, answer := res.2.1, is_replan := res.2.2 }

/-! ## Plan Graph Builder

The builder `get_graph_dict` is imported by `output_parser.py` from
`llama_index.agent.llm_compiler.utils`, a file that is not part of this
source excerpt; only its caller (`LLMCompilerPlanParser.parse`, lines
56-59) and the dependency rule it uses (`default_dependency_rule`, lines
22-25) are in the excerpt.  The builder is therefore modelled from the
spec (§4.3). -/

/-- A node of the produced graph (spec §3 `TaskNode`). -/
structure TaskNode where
  idx : Nat
  tool_name : String
  args : String
  dependencies : List Nat
  thought : String
  deriving DecidableEq

/-- The builder-level error taxonomy of spec §7 that is fatal to a parse. -/
inductive GraphError where
  | invalidToolReference
  | duplicateStepId
  deriving DecidableEq

/-- The produced graph (spec §3 `PlanGraph`): the task nodes, including
the synthetic terminal join node, and the sentinel id of that join node. -/
structure PlanGraph where
  nodes : List TaskNode
  joinId : Nat
  deriving DecidableEq

/-- Drop later records whose id already occurred (silent deduplication of
identical duplicates, spec §4.3).  Fuel-indexed to keep the recursion
structural; `fuel = length + 1` suffices. -/
def dedupById : Nat → List LLMCompilerParseResult → List LLMCompilerParseResult
  | 0, _ => []
  | _ + 1, [] => []
  | fuel + 1, r :: rs =>
    r :: dedupById fuel (rs.filter (fun s => s.idx != r.idx))

/-- Modelled from the spec: the step records retained by the graph
builder — the graph-assembly stage of `get_graph_dict` (spec §4.3) after
silent deduplication of identical duplicate ids. -/
def planSteps (results : List LLMCompilerParseResult) :
    List LLMCompilerParseResult :=
  dedupById (results.length + 1) results

/-- The ids that actually occur in the plan (after deduplication). -/
def planIds (results : List LLMCompilerParseResult) : List Nat :=
  (planSteps results).map LLMCompilerParseResult.idx

/-- One task node: its dependency set is computed by the source's
`default_dependency_rule` over the candidate ids occurring in the plan,
dropping self-references (spec §3, §4.3). -/
def mkTaskNode (ids : List Nat) (r : LLMCompilerParseResult) : TaskNode :=
  { idx := r.idx, tool_name := r.tool_name, args := r.args,
    dependencies :=
      ids.filter (fun d => default_dependency_rule d r.args && d != r.idx),
    thought := r.thought }

/-- The nodes built from the plan's own steps. -/
def realNodes (results : List LLMCompilerParseResult) : List TaskNode :=
  (planSteps results).map (mkTaskNode (planIds results))

/-- Sentinel id of the synthetic join node: larger than every real id
(spec §3: "sentinel id not used by any real step"). -/
def joinIdOf (results : List LLMCompilerParseResult) : Nat :=
  listMax (planIds results) + 1

/-- The ids no other node lists as a dependency: the dependency set of the
synthetic join node, which makes it the single sink (spec §4.3). -/
def sinksOf (results : List LLMCompilerParseResult) : List Nat :=
  (planIds results).filter
    (fun i => !((realNodes results).any (fun n => n.dependencies.contains i)))

/-- The synthetic terminal join node (spec §2, §4.3). -/
def joinNodeOf (results : List LLMCompilerParseResult) : TaskNode :=
  { idx := joinIdOf results, tool_name := "join", args := "",
    dependencies := sinksOf results, thought := "" }

/-- The assembled graph. -/
def buildGraph (results : List LLMCompilerParseResult) : PlanGraph :=
  { nodes := realNodes results ++ [joinNodeOf results],
    joinId := joinIdOf results }

/-- Modelled from the spec: `get_graph_dict(results, tools)` of
`llama_index.agent.llm_compiler.utils` (not in the excerpt), following
spec §4.3: an unknown tool name fails the whole parse with
`InvalidToolReference`; a step id occurring twice with different
tool/argument content fails with `DuplicateStepId` (identical duplicates
are silently deduplicated); otherwise the graph is assembled by
`buildGraph`.  The capability set is modelled as the list of known tool
names. -/
def get_graph_dict (results : List LLMCompilerParseResult)
    (tools : List String) : Except GraphError PlanGraph :=
  if results.any (fun r => !(tools.contains r.tool_name)) then
    Except.error GraphError.invalidToolReference
  else if results.any (fun r1 => results.any (fun r2 =>
      r1.idx == r2.idx &&
        (r1.tool_name != r2.tool_name || r1.args != r2.args))) then
    Except.error GraphError.duplicateStepId
  else
    Except.ok (buildGraph results)

/-- Source lines 39-59: `LLMCompilerPlanParser.parse` — tokenize the plan
text, then hand the step records to the graph builder. -/
def planParse (text : String) (tools : List String) :
    Except GraphError PlanGraph :=
  get_graph_dict (stepScan text) tools

instance {ε α : Type} [DecidableEq ε] [DecidableEq α] :
    DecidableEq (Except ε α) := fun a b =>
  match a, b with
  | Except.error e₁, Except.error e₂ =>
    if h : e₁ = e₂ then isTrue (by rw [h]) else isFalse (by simp [h])
  | Except.error _, Except.ok _ => isFalse (by simp)
  | Except.ok _, Except.error _ => isFalse (by simp)
  | Except.ok a₁, Except.ok a₂ =>
    if h : a₁ = a₂ then isTrue (by rw [h]) else isFalse (by simp [h])

/-! ## Further definitions used by the theorems -/

/-- Source line 16: `END_OF_PLAN = "<END_OF_PLAN>"`.  The constant is
defined in the source file but `LLMCompilerPlanParser.parse` never
consults it. -/
def END_OF_PLAN : String := "<END_OF_PLAN>"

/-- Index of the last occurrence of `c` in `l`, if any. -/
def lastIdxOf (c : Char) (l : List Char) : Option Nat :=
  match findIdxFrom (fun x => x == c) l.reverse 0 with
  | some k => some (l.length - 1 - k)
  | none => none

/-- Formalisation of the spec's words (§4.4): the payload of an action
line is "the substring strictly between the first `(` and the last `)` on
that line".  Stated separately from the code's `extractAnswer` so the two
can be compared. -/
def specAnswerFirstToLastParen (l : List Char) : Option (List Char) :=
  match findIdxFrom (fun x => x == '(') l 0, lastIdxOf ')' l with
  | some i, some j =>
    if i < j then some ((l.drop (i + 1)).take (j - (i + 1))) else none
  | _, _ => none

/-- Concrete step records used by the witnesses: step 1 references itself
(`$1`, a self-loop to drop) and a hallucinated id (`$9`, dangling); step 2
references step 1. -/
def exampleSteps : List LLMCompilerParseResult :=
  [{ thought := "", idx := 1, tool_name := "search", args := "find $1 and $9" },
   { thought := "", idx := 2, tool_name := "join", args := "$1" }]

/-- Capability set for the witnesses. -/
def exampleTools : List String := ["search", "join"]

/-- The graph the builder produces on `exampleSteps`: the self-reference
and the dangling reference of step 1 are both dropped, step 2 depends on
step 1, and the synthetic join node 3 depends on the sole sink, step 2. -/
def exampleGraph : PlanGraph :=
  { nodes :=
      [{ idx := 1, tool_name := "search", args := "find $1 and $9",
         dependencies := [], thought := "" },
       { idx := 2, tool_name := "join", args := "$1",
         dependencies := [1], thought := "" },
       { idx := 3, tool_name := "join", args := "",
         dependencies := [2], thought := "" }],
    joinId := 3 }

/-! ## Helper lemmas -/

theorem mem_dedupById {x : LLMCompilerParseResult} :
    ∀ {fuel : Nat} {l : List LLMCompilerParseResult},
      x ∈ dedupById fuel l → x ∈ l := by
  intro fuel
  induction fuel with
  | zero => intro l h; simp [dedupById] at h
  | succ n ih =>
    intro l h
    match l with
    | [] => simp [dedupById] at h
    | r :: rs =>
      simp only [dedupById, List.mem_cons] at h
      rcases h with rfl | h
      · exact List.mem_cons_self _ _
      · exact List.mem_cons_of_mem _ (List.mem_filter.mp (ih h)).1

theorem le_listMax {i : Nat} : ∀ {l : List Nat}, i ∈ l → i ≤ listMax l := by
  intro l
  induction l with
  | nil => intro h; simp at h
  | cons a l ih =>
    intro h
    rcases List.mem_cons.mp h with rfl | h
    · exact Nat.le_max_left _ _
    · exact Nat.le_trans (ih h) (Nat.le_max_right _ _)

theorem lastSat_sat {p : α → Bool} :
    ∀ {l : List α} {a : α}, lastSat p l = some a → p a = true := by
  intro l
  induction l with
  | nil => intro a h; simp [lastSat] at h
  | cons c cs ih =>
    intro a h
    unfold lastSat at h
    cases hl : lastSat p cs with
    | some b => rw [hl] at h; exact (Option.some.inj h) ▸ ih hl
    | none =>
      rw [hl] at h
      by_cases hc : p c = true
      · rw [if_pos hc] at h; exact (Option.some.inj h) ▸ hc
      · rw [if_neg hc] at h; exact absurd h (by simp)

theorem lastSat_eq_none {p : α → Bool} :
    ∀ {l : List α}, (∀ a ∈ l, p a = false) → lastSat p l = none := by
  intro l
  induction l with
  | nil => intro _; rfl
  | cons c cs ih =>
    intro h
    unfold lastSat
    rw [ih (fun a ha => h a (List.mem_cons_of_mem _ ha))]
    simp [h c (List.mem_cons_self _ _)]

theorem findIdxFrom_eq_none {p : Char → Bool} :
    ∀ {l : List Char} (s : Nat), (∀ c ∈ l, p c = false) →
      findIdxFrom p l s = none := by
  intro l
  induction l with
  | nil => intro s _; rfl
  | cons c cs ih =>
    intro s h
    unfold findIdxFrom
    rw [if_neg (by simp [h c (List.mem_cons_self _ _)])]
    exact ih (s + 1) (fun x hx => h x (List.mem_cons_of_mem _ hx))

theorem findIdxFrom_bounds {p : Char → Bool} :
    ∀ {l : List Char} {s i : Nat}, findIdxFrom p l s = some i →
      s ≤ i ∧ i < s + l.length := by
  intro l
  induction l with
  | nil => intro s i h; simp [findIdxFrom] at h
  | cons c cs ih =>
    intro s i h
    unfold findIdxFrom at h
    by_cases hc : p c = true
    · rw [if_pos hc] at h
      have : s = i := Option.some.inj h
      subst this
      exact ⟨Nat.le_refl _, by simp [Nat.lt_add_of_pos_right, Nat.succ_pos]⟩
    · rw [if_neg hc] at h
      have := ih h
      constructor
      · omega
      · simp only [List.length_cons]; omega

theorem startsWithL_length :
    ∀ {p l : List Char}, startsWithL p l = true → p.length ≤ l.length := by
  intro p
  induction p with
  | nil => intro l _; simp
  | cons x xs ih =>
    intro l h
    match l with
    | [] => simp [startsWithL] at h
    | c :: cs =>
      simp only [startsWithL, Bool.and_eq_true] at h
      simp only [List.length_cons]
      exact Nat.succ_le_succ (ih h.2)

theorem joinerStep_snd_of_not_action {acc : String × String × Bool}
    {ans : List Char} (h : startsWithL actionPreL ans = false) :
    (joinerStep acc ans).2 = acc.2 := by
  unfold joinerStep
  rw [if_neg (by simp [h])]
  by_cases ht : startsWithL thoughtPreL ans = true
  · rw [if_pos ht]
  · rw [if_neg (by simp [ht])]

theorem foldl_joinerStep_snd :
    ∀ (ls : List (List Char)) (acc : String × String × Bool),
      (ls.foldl joinerStep acc).2 =
        match lastSat (fun x => startsWithL actionPreL x) ls with
        | none => acc.2
        | some l => (String.mk (extractAnswer l), containsSub replanL l) := by
  intro ls
  induction ls with
  | nil => intro acc; rfl
  | cons c cs ih =>
    intro acc
    rw [List.foldl_cons, ih]
    cases hcs : lastSat (fun x => startsWithL actionPreL x) cs with
    | some l => simp only [lastSat, hcs]
    | none =>
      simp only [lastSat, hcs]
      by_cases hc : startsWithL actionPreL c = true
      · rw [if_pos hc]
        unfold joinerStep
        rw [if_pos hc]
      · rw [if_neg hc]
        simp only [Bool.not_eq_true] at hc
        exact joinerStep_snd_of_not_action hc

theorem joinerParse_ans_rep (t : String) :
    ((joinerParse t).answer, (joinerParse t).is_replan) =
      match lastSat (fun x => startsWithL actionPreL x) (splitNl t.data) with
      | none => ("", false)
      | some l => (String.mk (extractAnswer l), containsSub replanL l) := by
  unfold joinerParse
  rw [← foldl_joinerStep_snd (splitNl t.data) ("", "", false)]

theorem mem_planIds_of_mem_sinks {results : List LLMCompilerParseResult}
    {d : Nat} (h : d ∈ sinksOf results) : d ∈ planIds results :=
  (List.mem_filter.mp h).1

theorem mem_results_idx_of_mem_planIds {results : List LLMCompilerParseResult}
    {d : Nat} (h : d ∈ planIds results) :
    d ∈ results.map LLMCompilerParseResult.idx := by
  rcases List.mem_map.mp h with ⟨r, hr, rfl⟩
  exact List.mem_map.mpr ⟨r, mem_dedupById hr, rfl⟩

theorem joinIdOf_not_mem_planIds (results : List LLMCompilerParseResult) :
    joinIdOf results ∉ planIds results := by
  intro h
  have h2 := le_listMax h
  unfold joinIdOf at h2
  omega

theorem buildGraph_no_self (results : List LLMCompilerParseResult) :
    ∀ n ∈ (buildGraph results).nodes, n.idx ∉ n.dependencies := by
  intro n hn
  unfold buildGraph at hn
  rcases List.mem_append.mp hn with hreal | hjoin
  · rcases List.mem_map.mp hreal with ⟨r, _, rfl⟩
    intro hmem
    have hp := (List.mem_filter.mp hmem).2
    simp only [Bool.and_eq_true, bne_iff_ne, ne_eq] at hp
    exact hp.2 rfl
  · have hn' : n = joinNodeOf results := List.mem_singleton.mp hjoin
    subst hn'
    intro hmem
    exact joinIdOf_not_mem_planIds results (mem_planIds_of_mem_sinks hmem)

theorem buildGraph_deps_present (results : List LLMCompilerParseResult) :
    ∀ n ∈ (buildGraph results).nodes, ∀ d ∈ n.dependencies,
      d ∈ results.map LLMCompilerParseResult.idx := by
  intro n hn d hd
  unfold buildGraph at hn
  rcases List.mem_append.mp hn with hreal | hjoin
  · rcases List.mem_map.mp hreal with ⟨r, _, rfl⟩
    exact mem_results_idx_of_mem_planIds (List.mem_filter.mp hd).1
  · have hn' : n = joinNodeOf results := List.mem_singleton.mp hjoin
    subst hn'
    exact mem_results_idx_of_mem_planIds (mem_planIds_of_mem_sinks hd)

theorem get_graph_dict_ok {results : List LLMCompilerParseResult}
    {tools : List String} {g : PlanGraph}
    (h : get_graph_dict results tools = Except.ok g) : g = buildGraph results := by
  unfold get_graph_dict at h
  by_cases h1 : results.any (fun r => !(tools.contains r.tool_name)) = true
  · rw [if_pos h1] at h; exact absurd h (by simp)
  · rw [if_neg h1] at h
    by_cases h2 : results.any (fun r1 => results.any (fun r2 =>
        r1.idx == r2.idx &&
          (r1.tool_name != r2.tool_name || r1.args != r2.args))) = true
    · rw [if_pos h2] at h; exact absurd h (by simp)
    · rw [if_neg h2] at h
      exact (Except.ok.inj h).symm

theorem pySliceIdx_negOne_add_one (n : Nat) : pySliceIdx n (-1 + 1) = 0 := by
  unfold pySliceIdx
  rw [if_neg (by decide)]
  have h0 : ((-1 : Int) + 1) = 0 := by decide
  rw [h0]
  simp

theorem pySliceIdx_negOne (n : Nat) : pySliceIdx n (-1) = n - 1 := by
  unfold pySliceIdx
  rw [if_pos (by decide)]
  omega

theorem pySlice_zero_negOne (l : List Char) : pySlice l (-1 + 1) (-1) = l.dropLast := by
  simp only [pySlice, pySliceIdx_negOne_add_one, pySliceIdx_negOne]
  simp only [List.drop_zero, Nat.sub_zero]
  rw [List.dropLast_eq_take]

theorem pySliceIdx_nonneg {n : Nat} {i : Int} (h0 : 0 ≤ i) (h : i.toNat ≤ n) :
    pySliceIdx n i = i.toNat := by
  unfold pySliceIdx
  rw [if_neg (by omega)]
  omega

/-! ## Claims -/

/-- C1, counterexample: the claim says the reference `$3` occurring inside
the identifier-like token `x$3y` of the argument string
`"lookup($1, ${2}, x$3y)"` contributes nothing; but the source's
`default_dependency_rule` (which applies `ID_PATTERN`, line 14) does treat
3 as referenced, because `ID_PATTERN` carries no token-boundary
restriction. -/
theorem id_pattern_counterexample :
    default_dependency_rule 3 "lookup($1, ${2}, x$3y)" = true := by decide

/-- C1, amended: for the argument string `"lookup($1, ${2}, x$3y)"` the
step-id references extracted via `ID_PATTERN` are exactly 1, 2 and 3 — the
`$3` inside `x$3y` does contribute, since the pattern has no boundary
rule — while a digit with no `$` sigil (as in `tool7`) contributes
nothing. -/
theorem id_pattern_scan_eval :
    scanRefs "lookup($1, ${2}, x$3y)" = [1, 2, 3] ∧
    scanRefs "tool7" = [] ∧
    default_dependency_rule 7 "tool7" = false := by decide

/-- C2, counterexample: on the single action line
`"Action: Finish(a) b)"` the classifier returns the text up to the first
`)` (`"a"`, from `ans[ans.find("(") + 1 : ans.find(")")]`, line 78), not
the substring up to the last `)` (`"a) b"`) that the claim demands. -/
theorem joiner_answer_counterexample :
    (joinerParse "Action: Finish(a) b)").answer = "a" ∧
    specAnswerFirstToLastParen "Action: Finish(a) b)".data =
      some "a) b".data ∧
    ("a" : String) ≠ "a) b" := by decide

/-- C2, amended: for every join-phase text whose last line starting with
`"Action:"` has its first `(` at index `i` and its first `)` at index
`j` with `i < j`, the classifier's answer is the substring of that line
strictly between the first `(` and the first `)` (not the last `)`). -/
theorem joiner_answer_between_first_parens (t : String) (l : List Char)
    (i j : Nat)
    (h1 : lastSat (fun x => startsWithL actionPreL x) (splitNl t.data) =
      some l)
    (h2 : findIdxFrom (fun c => c == '(') l 0 = some i)
    (h3 : findIdxFrom (fun c => c == ')') l 0 = some j)
    (h4 : i < j) :
    (joinerParse t).answer = String.mk ((l.drop (i + 1)).take (j - (i + 1))) := by
  have hans := joinerParse_ans_rep t
  rw [h1] at hans
  have hansa : (joinerParse t).answer = String.mk (extractAnswer l) :=
    congrArg Prod.fst hans
  rw [hansa]
  congr 1
  unfold extractAnswer pyFindChar
  rw [h2, h3]
  have hib := findIdxFrom_bounds h2
  have hjb := findIdxFrom_bounds h3
  simp only [pySlice]
  rw [pySliceIdx_nonneg (by omega) (by omega),
      pySliceIdx_nonneg (by omega) (by omega)]
  have e1 : ((i : Int) + 1).toNat = i + 1 := by omega
  have e2 : ((j : Int)).toNat = j := by omega
  rw [e1, e2]

/-- C2, witness for the amended theorem at the join text
`"Action: Finish(42)"`. -/
theorem joiner_answer_between_first_parens_witness :
    lastSat (fun x => startsWithL actionPreL x)
        (splitNl "Action: Finish(42)".data) =
      some "Action: Finish(42)".data ∧
    findIdxFrom (fun c => c == '(') "Action: Finish(42)".data 0 = some 14 ∧
    findIdxFrom (fun c => c == ')') "Action: Finish(42)".data 0 = some 17 ∧
    (joinerParse "Action: Finish(42)").answer =
      String.mk (("Action: Finish(42)".data.drop 15).take 2) :=
  ⟨by decide, by decide, by decide,
    joiner_answer_between_first_parens "Action: Finish(42)"
      "Action: Finish(42)".data 14 17 (by decide) (by decide) (by decide)
      (by decide)⟩

/-- C3, counterexample: the plan text
`"1. search(a)\n<END_OF_PLAN>\n2. search(b)\n"` contains the literal
terminal token before step 2, yet the tokenizing stage of
`LLMCompilerPlanParser.parse` (which scans the whole text with
`re.findall` and never consults `END_OF_PLAN`) still emits step 2. -/
theorem end_of_plan_counterexample :
    containsSub END_OF_PLAN.data
        "1. search(a)\n<END_OF_PLAN>\n2. search(b)\n".data = true ∧
    (stepScan "1. search(a)\n<END_OF_PLAN>\n2. search(b)\n").map
        LLMCompilerParseResult.idx = [1, 2] := by decide

/-- C3, amended: the literal token `<END_OF_PLAN>` has no effect on the
parse: it is itself skipped as unmatched text (so hitting it is not an
error), but steps occurring after it in the text that match the step
grammar are still included in the parse result. -/
theorem end_of_plan_no_effect :
    stepScan "1. search(a)\n<END_OF_PLAN>\n2. search(b)\n" =
      [{ thought := "", idx := 1, tool_name := "search", args := "a" },
       { thought := "", idx := 2, tool_name := "search", args := "b" }] := by
  decide

/-- C6: the single-line join text `"Action: Replan(need more data)"`
yields an empty thought, the answer `"need more data"` and
`is_replan = true`. -/
theorem joiner_replan_eval :
    joinerParse "Action: Replan(need more data)" =
      { thought := "", answer := "need more data", is_replan := true } := by
  decide

/-- C7: the classifier is a total function of the join text (the
embedding returns a `JoinerOutput` for every input by construction, as
does the source, whose loop only slices and scans strings), and on a text
none of whose lines starts with `"Action:"` the result keeps the default
empty answer and `is_replan = false`. -/
theorem joiner_defaults_without_action (t : String)
    (h : ∀ l ∈ splitNl t.data, startsWithL actionPreL l = false) :
    (joinerParse t).answer = "" ∧ (joinerParse t).is_replan = false := by
  have hans := joinerParse_ans_rep t
  rw [lastSat_eq_none h] at hans
  exact ⟨congrArg Prod.fst hans, congrArg Prod.snd hans⟩

/-- C7, witness at the action-free join text `"hello\nThought: hi\nworld"`. -/
theorem joiner_defaults_without_action_witness :
    (∀ l ∈ splitNl "hello\nThought: hi\nworld".data,
      startsWithL actionPreL l = false) ∧
    ((joinerParse "hello\nThought: hi\nworld").answer = "" ∧
     (joinerParse "hello\nThought: hi\nworld").is_replan = false) :=
  ⟨by decide, joiner_defaults_without_action "hello\nThought: hi\nworld"
    (by decide)⟩

/-- C8: the tokenizer is total (the embedding returns a list of step
records for every input by construction, matching `re.findall`, which
cannot fail), and on a text consisting of one well-formed step plus one
garbage line it yields exactly the one recognized step record. -/
theorem tokenizer_tolerance_eval :
    stepScan "1. search(\"a\")\nnot a step line\n" =
      [{ thought := "", idx := 1, tool_name := "search", args := "\"a\"" }] := by
  decide

/-- C10: when the last `"Action:"` line of the join text contains neither
`(` nor `)`, both `find` calls return `-1`, so the source computes
`ans[0:-1]`: the whole line minus its final character — which is never
empty, since the line carries the 7-character prefix `"Action:"`. -/
theorem joiner_action_line_no_parens (t : String) (l : List Char)
    (h1 : lastSat (fun x => startsWithL actionPreL x) (splitNl t.data) =
      some l)
    (h2 : '(' ∉ l) (h3 : ')' ∉ l) :
    (joinerParse t).answer = String.mk l.dropLast ∧
    (joinerParse t).answer ≠ "" := by
  have hans := joinerParse_ans_rep t
  rw [h1] at hans
  have hansa : (joinerParse t).answer = String.mk (extractAnswer l) :=
    congrArg Prod.fst hans
  have hf1 : findIdxFrom (fun c => c == '(') l 0 = none := by
    apply findIdxFrom_eq_none
    intro c hc
    simp only [beq_eq_false_iff_ne, ne_eq]
    rintro rfl
    exact h2 hc
  have hf2 : findIdxFrom (fun c => c == ')') l 0 = none := by
    apply findIdxFrom_eq_none
    intro c hc
    simp only [beq_eq_false_iff_ne, ne_eq]
    rintro rfl
    exact h3 hc
  have hextract : extractAnswer l = l.dropLast := by
    unfold extractAnswer pyFindChar
    rw [hf1, hf2]
    exact pySlice_zero_negOne l
  constructor
  · rw [hansa, hextract]
  · rw [hansa, hextract]
    intro heq
    have hdata : l.dropLast = [] := congrArg String.data heq
    have hlen7 : actionPreL.length ≤ l.length :=
      startsWithL_length (lastSat_sat h1)
    have : l.dropLast.length = 0 := by rw [hdata]; rfl
    rw [List.length_dropLast] at this
    have : actionPreL.length = 7 := by decide
    omega

/-- C10, witness at the join text `"Action: finish now"` (no parentheses
on its action line). -/
theorem joiner_action_line_no_parens_witness :
    lastSat (fun x => startsWithL actionPreL x)
        (splitNl "Action: finish now".data) =
      some "Action: finish now".data ∧
    '(' ∉ "Action: finish now".data ∧
    ')' ∉ "Action: finish now".data ∧
    ((joinerParse "Action: finish now").answer =
        String.mk "Action: finish now".data.dropLast ∧
     (joinerParse "Action: finish now").answer ≠ "") :=
  ⟨by decide, by decide, by decide,
    joiner_action_line_no_parens "Action: finish now"
      "Action: finish now".data (by decide) (by decide) (by decide)⟩

/-- C4: whenever the plan graph builder succeeds, no node of the produced
graph — including the synthetic join node — lists its own id among its
dependencies: every self-reference (a `$<own id>` occurring in a step's
own argument string) is dropped. -/
theorem no_self_dependency (results : List LLMCompilerParseResult)
    (tools : List String) (g : PlanGraph)
    (h : get_graph_dict results tools = Except.ok g) :
    ∀ n ∈ g.nodes, n.idx ∉ n.dependencies := by
  rw [get_graph_dict_ok h]
  exact buildGraph_no_self results

/-- C4, witness on `exampleSteps`, whose step 1 contains the adversarial
self-reference `$1` in its own arguments. -/
theorem no_self_dependency_witness :
    get_graph_dict exampleSteps exampleTools = Except.ok exampleGraph ∧
    ∀ n ∈ exampleGraph.nodes, n.idx ∉ n.dependencies :=
  ⟨by decide,
    no_self_dependency exampleSteps exampleTools exampleGraph (by decide)⟩

/-- C5: whenever the plan graph builder succeeds, every dependency id of
every node of the produced graph is the id of one of the step records
handed to the builder: references to absent ids are silently dropped, so
no dangling id leaks into the graph. -/
theorem no_dangling_dependencies (results : List LLMCompilerParseResult)
    (tools : List String) (g : PlanGraph)
    (h : get_graph_dict results tools = Except.ok g) :
    ∀ n ∈ g.nodes, ∀ d ∈ n.dependencies,
      d ∈ results.map LLMCompilerParseResult.idx := by
  rw [get_graph_dict_ok h]
  exact buildGraph_deps_present results

/-- C5, witness on `exampleSteps`, whose step 1 contains the dangling
reference `$9` to an id absent from the plan. -/
theorem no_dangling_dependencies_witness :
    get_graph_dict exampleSteps exampleTools = Except.ok exampleGraph ∧
    ∀ n ∈ exampleGraph.nodes, ∀ d ∈ n.dependencies,
      d ∈ exampleSteps.map LLMCompilerParseResult.idx :=
  ⟨by decide,
    no_dangling_dependencies exampleSteps exampleTools exampleGraph
      (by decide)⟩

/-- C9: the plan parser is a pure function of the plan text and the
capability set — the source has no randomness, no ambient state and no
iteration-order nondeterminism, which the embedding reflects — so two
invocations on the same text and tools that produce graphs produce
structurally equal graphs: the same node list (hence the same node ids
and the same dependency set for each node) and the same join sentinel. -/
theorem planParse_deterministic (t : String) (c : List String)
    (g₁ g₂ : PlanGraph)
    (h₁ : planParse t c = Except.ok g₁) (h₂ : planParse t c = Except.ok g₂) :
    g₁.nodes = g₂.nodes ∧ g₁.joinId = g₂.joinId := by
  have hg : g₁ = g₂ := Except.ok.inj (h₁.symm.trans h₂)
  exact ⟨congrArg PlanGraph.nodes hg, congrArg PlanGraph.joinId hg⟩

/-- C9, witness: two invocations of the parser on the same concrete plan
text and capability set. -/
theorem planParse_deterministic_witness :
    planParse "1. search(find $1 and $9)\n2. join($1)\n" exampleTools =
      Except.ok exampleGraph ∧
    (exampleGraph.nodes = exampleGraph.nodes ∧
     exampleGraph.joinId = exampleGraph.joinId) :=
  ⟨by decide,
    planParse_deterministic "1. search(find $1 and $9)\n2. join($1)\n"
      exampleTools exampleGraph exampleGraph (by decide) (by decide)⟩

/-- Validation of the embedding against the spec's concrete scenario 1:
the three-step plan with the terminal marker, under the capability set
`{search, join}`, yields nodes 1, 2, 3 with node 3 depending on 1 and 2,
and the join sentinel (id 4) depending on the sole sink, node 3. -/
theorem scenario_one_eval :
    planParse "1. search(\"a\")\n2. search(\"b\")\n3. join($1,$2)\n<END_OF_PLAN>"
        ["search", "join"] =
      Except.ok
        { nodes :=
            [{ idx := 1, tool_name := "search", args := "\"a\"",
               dependencies := [], thought := "" },
             { idx := 2, tool_name := "search", args := "\"b\"",
               dependencies := [], thought := "" },
             { idx := 3, tool_name := "join", args := "$1,$2",
               dependencies := [1, 2], thought := "" },
             { idx := 4, tool_name := "join", args := "",
               dependencies := [3], thought := "" }],
          joinId := 4 } := by decide

/-- Validation of the embedding against the spec's concrete scenario 2:
a plan invoking an unknown tool fails the whole parse with
`InvalidToolReference`. -/
theorem scenario_two_eval :
    planParse "1. unknown_tool(\"x\")" ["search"] =
      Except.error GraphError.invalidToolReference := by decide

/-- Validation of the embedding against the spec's concrete scenario 3:
a thought line followed by a finish action. -/
theorem scenario_three_eval :
    joinerParse "Thought: done\nAction: Finish(42)" =
      { thought := "done", answer := "42", is_replan := false } := by decide

/-- Validation of the step tokenizer on a step with a preceding thought
line, an embedded reference and a trailing `#tag` marker, followed by a
second zero-argument step. -/
theorem tokenizer_thought_trailing_eval :
    stepScan "Thought: find it\n1. search(x, $2)  #e\n2. join()\n" =
      [{ thought := "find it", idx := 1, tool_name := "search", args := "x, $2" },
       { thought := "", idx := 2, tool_name := "join", args := "" }] := by
  decide
